import Mathlib

/-!
Shallow embedding of the core of `deep_translator.py` (multi-provider
translation & rephrase orchestration engine), together with proofs that
settle the frozen claims about its specification.

Python strings are sequences of code points; we model them as Lean
`String`s and implement the Python primitives (`strip`, `startswith`,
slicing, `split("\n")`, `"\n".join`, `lower`) over `String.data`
(`List Char`), which matches Python's code-point semantics.  Whitespace
is modelled as the ASCII whitespace characters recognised by Python's
`str.strip` / regex `\s` (the source never manipulates exotic Unicode
whitespace).
-/

namespace DeepTranslator

/-- Whitespace test used by Python `str.strip()` and the regex class `\s`
(ASCII part: space, tab, newline, carriage return, vertical tab, form feed). -/
def pyIsSpace (c : Char) : Bool :=
  c == ' ' || c == '\t' || c == '\n' || c == '\r' || c == '\x0b' || c == '\x0c'

/-- Python `str.strip()` on a code-point list: drop whitespace from both ends. -/
def pyStripList (l : List Char) : List Char :=
  ((l.dropWhile pyIsSpace).reverse.dropWhile pyIsSpace).reverse

/-- Python `str.strip()`. -/
def pyStrip (s : String) : String := ⟨pyStripList s.data⟩

/-- Python `s.startswith(kw)`. -/
def pyStartsWith (s kw : String) : Bool := kw.data.isPrefixOf s.data

/-- Python `len(s)` (number of code points). -/
def pyLen (s : String) : Nat := s.data.length

/-- Python slicing `s[n:]` (drop the first `n` code points). -/
def pyDrop (s : String) (n : Nat) : String := ⟨s.data.drop n⟩

/-- Helper for `pySplitLines`: accumulates the current line (reversed). -/
def splitLinesAux : List Char → List Char → List String
  | [], acc => [⟨acc.reverse⟩]
  | c :: rest, acc =>
    if c = '\n' then ⟨acc.reverse⟩ :: splitLinesAux rest []
    else splitLinesAux rest (c :: acc)

/-- Python `s.split("\n")`. -/
def pySplitLines (s : String) : List String := splitLinesAux s.data []

/-- Python `"\n".join(parts)`. -/
def joinNL : List String → String
  | [] => ""
  | [s] => s
  | s :: rest => s ++ "\n" ++ joinNL rest

/-- Python `str.lower()` (ASCII case folding, as used on the label prefixes). -/
def pyLower (s : String) : String := ⟨s.data.map Char.toLower⟩

/-- Python `s.lower().startswith(kw.lower())`. -/
def pyLowerStartsWith (s kw : String) : Bool :=
  (pyLower kw).data.isPrefixOf (pyLower s).data

/-- Embeds `str.replace('"', '')` from `translate_to_source`: removing every
occurrence of the one-character pattern `"` with an empty replacement is
exactly filtering that character out. -/
def removeQuotes (s : String) : String := ⟨s.data.filter (fun c => c != '"')⟩

/-- One record of the translation history (fields as written by
`update_result` / `process_deepl_results` and persisted to XML). -/
structure HistoryEntry where
  time : String
  provider : String
  original : String
  translated : String
  rephrased : String
  target_language : String
  deriving DecidableEq

/-- Numeric value of a digit character. -/
def digitVal (c : Char) : Nat := c.toNat - 48

/-- One numeric field of the `_strptime` regex for a one-or-two-digit
directive (for example `%m` is `1[0-2]|0[1-9]|[1-9]`): `valid2` is the set
of values reachable by the two-digit alternatives, `valid1` the set
reachable by the one-digit alternative.  Because every field of the format
`"%Y-%m-%d %H:%M:%S"` is followed by a non-digit delimiter or the end of
the string, taking two digits whenever the two-digit alternative matches
is equivalent to the regex with backtracking: if two digits are present
but only one is consumed, the next character is a digit and the delimiter
(or end) can never match. -/
def parseField2 (valid2 valid1 : Nat → Bool) (cs : List Char) :
    Option (Nat × List Char) :=
  match cs with
  | [] => none
  | c1 :: rest1 =>
    if c1.isDigit then
      match rest1 with
      | c2 :: rest2 =>
        if c2.isDigit then
          if valid2 (digitVal c1 * 10 + digitVal c2) then
            some (digitVal c1 * 10 + digitVal c2, rest2)
          else none
        else if valid1 (digitVal c1) then some (digitVal c1, rest1) else none
      | [] => if valid1 (digitVal c1) then some (digitVal c1, []) else none
    else none

/-- Gregorian leap-year test, as in Python's `calendar.isleap`. -/
def isLeapYear (y : Nat) : Bool :=
  y % 4 == 0 && (!(y % 100 == 0) || y % 400 == 0)

/-- Number of days of month `mo` in year `y` (Python `calendar.monthrange`),
used by the `datetime` constructor's day validation. -/
def daysInMonth (y mo : Nat) : Nat :=
  if mo = 2 then (if isLeapYear y then 29 else 28)
  else if mo = 4 ∨ mo = 6 ∨ mo = 9 ∨ mo = 11 then 30
  else 31

/-- Embeds `datetime.strptime(t, "%Y-%m-%d %H:%M:%S")` as used by the
history sort key.  The parse follows Python's `_strptime` regexes for this
format: `%Y` is exactly four digits, `%m` matches one or two digits with
value 1 to 12 (no two-digit `00`), `%d` likewise 1 to 31, `%H` up to 23,
`%M` up to 59, `%S` up to 61, the literal `-` and `:` match themselves,
the format's space matches a non-empty whitespace run, and the whole
string must be consumed.  The `datetime` constructor then rejects year 0,
a day beyond the month's length (leap years included) and the leap-second
values 60 and 61, all of which raise `ValueError` in Python.  A parsed
timestamp maps to a number ordered exactly like the datetime
(lexicographic in year, month, day, hour, minute, second). -/
def parseTimeKey (s : String) : Option Nat :=
  match s.data with
  | y1 :: y2 :: y3 :: y4 :: '-' :: r1 =>
    if y1.isDigit ∧ y2.isDigit ∧ y3.isDigit ∧ y4.isDigit then
      match parseField2 (fun v => 1 ≤ v && v ≤ 12) (fun v => 1 ≤ v && v ≤ 9) r1 with
      | some (mo, '-' :: r2) =>
        match parseField2 (fun v => 1 ≤ v && v ≤ 31) (fun v => 1 ≤ v && v ≤ 9) r2 with
        | some (da, c3 :: r3) =>
          if pyIsSpace c3 then
            match parseField2 (fun v => v ≤ 23) (fun _ => true) (r3.dropWhile pyIsSpace) with
            | some (ho, ':' :: r4) =>
              match parseField2 (fun v => v ≤ 59) (fun _ => true) r4 with
              | some (mi, ':' :: r5) =>
                match parseField2 (fun v => v ≤ 61) (fun _ => true) r5 with
                | some (se, []) =>
                  let y := ((digitVal y1 * 10 + digitVal y2) * 10 + digitVal y3) * 10
                    + digitVal y4
                  if 1 ≤ y ∧ da ≤ daysInMonth y mo ∧ se ≤ 59 then
                    some (((((y * 13 + mo) * 32 + da) * 24 + ho) * 60 + mi) * 60 + se)
                  else none
                | _ => none
              | _ => none
            | _ => none
          else none
        | _ => none
      | _ => none
    else none
  | _ => none

/-- Sort key of one history entry (`lambda x: datetime.strptime(x["time"], ...)`).
The default value is irrelevant: it is only reached in the malformed branch
of `sort_history_data`, which leaves the list untouched. -/
def entryKey (e : HistoryEntry) : Nat := (parseTimeKey e.time).getD 0

/-- Comparator for the descending sort (`reverse=True`): `a` may precede `b`
when `a`'s timestamp is at least `b`'s. -/
def historyLe (a b : HistoryEntry) : Bool := decide (entryKey b ≤ entryKey a)

/-- Embeds `sort_history_data`: sorts the list newest-first by parsed
timestamp.  When some timestamp fails to parse, CPython's `list.sort` raises
`ValueError` mid-sort (caught by the function) and leaves the list in an
unspecified order; we model that branch as leaving the list unchanged, and
every theorem about sortedness assumes well-formed timestamps. -/
def sort_history_data (l : List HistoryEntry) : List HistoryEntry :=
  if l.all (fun e => (parseTimeKey e.time).isSome) then l.mergeSort historyLe else l

/-- The `"DeepL"` entry of the `supported_languages` dictionary. -/
def supported_languages_deepl (lang : String) : Option String :=
  match lang with
  | "Turkish" => some "TR"
  | "German" => some "DE"
  | "French" => some "FR"
  | "Spanish" => some "ES"
  | "Italian" => some "IT"
  | "Portuguese" => some "PT-PT"
  | "Dutch" => some "NL"
  | "Polish" => some "PL"
  | "Russian" => some "RU"
  | "Japanese" => some "JA"
  | "Chinese (simplified)" => some "ZH"
  | "English" => some "EN-GB"
  | "English-GB" => some "EN-GB"
  | "English-US" => some "EN-US"
  | _ => none

/-- Python `supported_languages["DeepL"].get(lang, lang)`. -/
def deeplLookup (lang : String) : String := (supported_languages_deepl lang).getD lang

/-- Embeds `get_deepl_source_code`: the dictionary code with regional
English/Portuguese target variants collapsed to their base source codes. -/
def get_deepl_source_code (lang : String) : String :=
  let code := deeplLookup lang
  if code = "EN-GB" ∨ code = "EN-US" then "EN"
  else if code = "PT-PT" then "PT"
  else code

/-- Embeds `get_deepl_target_code`: the dictionary code unchanged
(regional variants preserved). -/
def get_deepl_target_code (lang : String) : String := deeplLookup lang

/-- Spec-side definition (from the spec's words, for comparison with the
source functions): collapse a regional English/Portuguese code to its base
code, leave every other code unchanged. -/
def collapseRegional (code : String) : String :=
  if code = "EN-GB" ∨ code = "EN-US" then "EN"
  else if code = "PT-PT" then "PT"
  else code

/-- Session state of the orchestrator: the globals `last_selected_text`,
`last_translation` and `history_data`, plus the persisted history file
(`save_history_to_xml` rewrites it with the full in-memory list). -/
structure AppState where
  last_selected_text : String
  last_translation : String
  history_data : List HistoryEntry
  history_file : List HistoryEntry
  deriving DecidableEq

/-- A value returned by `ask_ai` / the provider call sites: a plain string
(LLM reply or `__ERROR__::` string) or the DeepL result dictionary. -/
inductive ApiResult where
  | str (s : String)
  | dict (translated rephrased : String)
  deriving DecidableEq

/-- Embeds the error test of `update_result`:
`isinstance(full_result, str) and full_result.startswith("__ERROR__::")`. -/
def isErrorResult : ApiResult → Bool
  | .str s => pyStartsWith s "__ERROR__::"
  | .dict _ _ => false

/-- Python `str(full_result)`.  For a string it is the string itself; the
dictionary rendering approximates Python's `repr` (no escaping) and is
unreachable in the orchestrated flows, which pass strings to the reverse
and rephrase paths. -/
def pyStr : ApiResult → String
  | .str s => s
  | .dict t r => "\x7b'translated': '" ++ t ++ "', 'rephrased': '" ++ r ++ "'\x7d"

/-- Section marker of the dual-section parser (`cur_section` in the source:
`None`, `"trans"` or `"rep"`). -/
inductive PSection where
  | nosec
  | trans
  | rep
  deriving DecidableEq

/-- Loop state of the dual-section parser in `update_result`:
`found_tr, found_rep, cur_section, trans_parts, rep_parts`. -/
structure PState where
  found_tr : Bool
  found_rep : Bool
  cur : PSection
  trans_parts : List String
  rep_parts : List String
  deriving DecidableEq

/-- Initial parser state. -/
def pInit : PState := ⟨false, false, .nosec, [], []⟩

/-- Body of the parser loop, applied to the already-stripped line `l`
(the source computes `l = line.strip()` first; see `parseStep`). -/
def parseStepCore (trKw repKw : String) (st : PState) (l : String) : PState :=
  if l = "" then st
  else if pyStartsWith l trKw && !st.found_tr then
    { st with
      found_tr := true
      cur := PSection.trans
      trans_parts := st.trans_parts ++ [pyStrip (pyDrop l (pyLen trKw))] }
  else if pyStartsWith l repKw && st.found_tr && !st.found_rep then
    { st with
      found_rep := true
      cur := PSection.rep
      rep_parts := st.rep_parts ++ [pyStrip (pyDrop l (pyLen repKw))] }
  else if st.cur = PSection.trans then { st with trans_parts := st.trans_parts ++ [l] }
  else if st.cur = PSection.rep then { st with rep_parts := st.rep_parts ++ [l] }
  else st

/-- One iteration of the parser loop on a raw line. -/
def parseStep (trKw repKw : String) (st : PState) (line : String) : PState :=
  parseStepCore trKw repKw st (pyStrip line)

/-- Sentinel when the translation label was never found. -/
def translation_not_found : String := "[Translation not found in LLM response]"

/-- Sentinel when the rephrase label was never found. -/
def rephrasing_not_found : String := "[Rephrasing not found in LLM response]"

/-- Final parser state after the loop of `update_result`. -/
def parse_fold (trKw repKw : String) (lines : List String) : PState :=
  lines.foldl (parseStep trKw repKw) pInit

/-- The dual-section parser of `update_result` over a list of lines:
fold the loop body, then join each section with newlines and strip,
falling back to the not-found sentinels. -/
def parse_llm_sections (trKw repKw : String) (lines : List String) : String × String :=
  (if (parse_fold trKw repKw lines).found_tr then
    pyStrip (joinNL (parse_fold trKw repKw lines).trans_parts)
   else translation_not_found,
   if (parse_fold trKw repKw lines).found_rep then
    pyStrip (joinNL (parse_fold trKw repKw lines).rep_parts)
   else rephrasing_not_found)

/-- The dual-section parser on the raw response text
(`lines = full_result.strip().split("\n")`). -/
def parse_llm_response (trKw repKw text : String) : String × String :=
  parse_llm_sections trKw repKw (pySplitLines (pyStrip text))

/-- Embeds `re.sub(r'\n\s*\n', '\n', s)` (the DeepSeek rephrase clean-up):
at each newline whose following maximal whitespace run contains another
newline, the match extends to the last newline of that run and is replaced
by a single newline; scanning resumes after the match (non-overlapping). -/
def collapseNlGaps (cs : List Char) : List Char :=
  match cs with
  | [] => []
  | c :: rest =>
    if h : c = '\n' ∧ '\n' ∈ rest.takeWhile pyIsSpace then
      '\n' :: collapseNlGaps
        ((((rest.takeWhile pyIsSpace).reverse.takeWhile (fun x => x != '\n')).reverse) ++
          rest.drop (rest.takeWhile pyIsSpace).length)
    else c :: collapseNlGaps rest
termination_by cs.length
decreasing_by
· rename List Char => tl
  have key : ∀ (l : List Char), '\n' ∈ l → (l.takeWhile (fun x => x != '\n')).length < l.length := by
    intro l hl
    induction l with
    | nil => simp at hl
    | cons a t ih =>
      by_cases ha : a = '\n'
      · subst ha; simp [List.takeWhile_cons]
      · have ht : '\n' ∈ t := by
          rcases List.mem_cons.mp hl with h1 | h1
          · exact absurd h1.symm ha
          · exact h1
        have hlt := ih ht
        simp only [List.takeWhile_cons, List.length_cons]
        have hb : (a != '\n') = true := by simp [ha]
        rw [hb]
        simp only [if_true, List.length_cons]
        omega
  have h1 := key (tl.takeWhile pyIsSpace).reverse (List.mem_reverse.mpr h.2)
  have h2 : (tl.takeWhile pyIsSpace).length ≤ tl.length :=
    (List.takeWhile_sublist _).length_le
  simp only [List.length_append, List.length_reverse, List.length_cons, List.length_drop,
    List.length_reverse] at h1 ⊢
  omega
· simp only [List.length_cons]; omega

/-- Appends one entry to the history, re-sorts, and persists the whole
collection (the `history_data.append(...); sort_history_data();
save_history_to_xml(history_data)` sequence shared by `update_result` and
`process_deepl_results`). -/
def commitHistory (provider src_hist tgt_hist now ho ht hr : String)
    (st : AppState) : AppState :=
  let entry : HistoryEntry := ⟨now, provider, ho, ht, hr, src_hist ++ " -> " ++ tgt_hist⟩
  let h := sort_history_data (st.history_data ++ [entry])
  { st with history_data := h, history_file := h }

/-- Embeds `update_result`: the orchestrator's result processing.
`provider` is the selected provider, `src_hist`/`tgt_hist` the history
direction set by the initiating action, `now` the timestamp of the entry.
GUI text-box updates are omitted (pure rendering); the returned state
carries the session globals and the history (in memory and persisted). -/
def update_result (provider src_hist tgt_hist now : String) (st : AppState)
    (text_passed : String) (full_result : ApiResult)
    (is_rephrase is_reverse : Bool) : AppState :=
  if isErrorResult full_result then st
  else if is_reverse then
    commitHistory provider src_hist tgt_hist now
      text_passed (pyStr full_result) "[N/A for reverse translation]" st
  else if is_rephrase then
    let processed0 := pyStr full_result
    let processed : String :=
      if provider = "DeepSeek" then ⟨collapseNlGaps (pyStripList processed0.data)⟩
      else processed0
    commitHistory provider src_hist tgt_hist now
      text_passed st.last_translation processed st
  else
    let tr_keyword := tgt_hist ++ " Translation:"
    let rep_keyword := src_hist ++ " Rephrased:"
    let cc : String × String × Bool :=
      match full_result with
      | .dict t r =>
        if provider = "DeepL" then (t, r, true)
        else ("[Error: Unexpected API result format]", "[Error: Unexpected API result format]", false)
      | .str s =>
        if provider = "DeepL" then
          ("[Error: Unexpected API result format]", "[Error: Unexpected API result format]", false)
        else
          let p := parse_llm_response tr_keyword rep_keyword s
          (p.1, p.2, true)
    let ht := cc.1
    let hr := cc.2.1
    let lt := if cc.2.2 then ht else st.last_translation
    let ls := if ht != "" && !(pyStartsWith ht "[") then text_passed else st.last_selected_text
    commitHistory provider src_hist tgt_hist now text_passed ht hr
      { st with last_selected_text := ls, last_translation := lt }

/-- Embeds the DeepL branch of `run_translate_rephrase`'s `api_call`
(the two-hop translate-then-back-translate technique).  The translator is
an oracle from (text, source_lang, target_lang) to a reply; besides the
result, the list of issued DeepL calls is returned so that theorems can
speak about the language codes of each hop. -/
inductive ApiResp where
  | ok (text : String)
  | exn (typeName msg : String)
  deriving DecidableEq

/-- One call issued to `deepl_translator.translate_text`. -/
structure DeeplCall where
  text : String
  source_lang : String
  target_lang : String
  deriving DecidableEq

/-- The two-hop DeepL Translate action (see `ApiResp` for the oracle). -/
def run_translate_rephrase (tr : String → String → String → ApiResp)
    (text src_display tgt_display : String) : ApiResult × List DeeplCall :=
  let c1 : DeeplCall := ⟨text, get_deepl_source_code src_display, get_deepl_target_code tgt_display⟩
  match tr c1.text c1.source_lang c1.target_lang with
  | .exn _ msg => (.str ("__ERROR__::DeepL API Error: " ++ msg), [c1])
  | .ok translated_text =>
    if translated_text = "" then
      (.dict "[Translation Failed or Empty]" "[Rephrasing skipped]", [c1])
    else
      let c2 : DeeplCall := ⟨translated_text, get_deepl_source_code tgt_display, get_deepl_target_code src_display⟩
      match tr c2.text c2.source_lang c2.target_lang with
      | .exn tyName _ => (.dict translated_text ("[Rephrasing Error: " ++ tyName ++ "]"), [c1, c2])
      | .ok r =>
        (.dict translated_text (if r = "" then "[Rephrasing resulted in empty text]" else r), [c1, c2])

/-- The five intermediate languages of the fan-out rephraser. -/
def intermediate_codes : List String := ["TR", "FR", "RU", "IT", "ES"]

/-- Embeds `perform_double_translation`: one fan-out worker's double hop,
returning the string it appends to the shared results list and the number
of network calls it issued. -/
def perform_double_translation (tr : String → String → String → ApiResp)
    (inter src_code tgt_code text : String) : String × Nat :=
  match tr text src_code inter with
  | .exn _ msg => ("__ERROR__::DeepL API Error via " ++ inter ++ ": " ++ msg, 1)
  | .ok it =>
    if it = "" then
      ("__ERROR__::ValueError via " ++ inter ++ ": Intermediate (" ++ inter ++ ") empty", 1)
    else
      match tr it inter tgt_code with
      | .exn _ msg => ("__ERROR__::DeepL API Error via " ++ inter ++ ": " ++ msg, 2)
      | .ok out =>
        if out = "" then
          ("__ERROR__::ValueError via " ++ inter ++ ": Final (" ++ tgt_code ++ ") empty via " ++ inter, 2)
        else (out, 2)

/-- Placeholder produced when no fan-out worker yields a valid result. -/
def no_valid_placeholder : String :=
  "[No valid rephrased alternatives found using multi-language translation.]"

/-- Embeds the candidate collection of `process_deepl_results`: keep, in
order and with duplicates, every non-error result that is non-empty after
stripping (the stripped text is what is kept). -/
def valid_rephrases (results : List String) : List String :=
  results.filterMap (fun res =>
    if pyStartsWith res "__ERROR__::" then none
    else if pyStrip res = "" then none
    else some (pyStrip res))

/-- Embeds the output formatting of `process_deepl_results`: number the
first five candidates, append the overflow note when more than five exist,
fall back to the placeholder when none do. -/
def format_rephrases (results : List String) : String :=
  let vr := valid_rephrases results
  if vr.isEmpty then no_valid_placeholder
  else
    let numbered := (vr.take 5).enum.map (fun p => toString (p.1 + 1) ++ ". " ++ p.2)
    let base := joinNL numbered
    if 5 < vr.length then base ++ "\n... (" ++ toString vr.length ++ " results found)"
    else base

/-- Embeds `process_deepl_results` (after the join): format the collected
worker results and unconditionally append a history entry recording them,
then persist. -/
def process_deepl_results (provider src_hist tgt_hist now : String)
    (st : AppState) (results : List String) : String × AppState :=
  let formatted := format_rephrases results
  let ht := if st.last_translation = "" then "[Previous translation missing]" else st.last_translation
  (formatted,
   commitHistory (provider ++ " (Rephrase)") src_hist tgt_hist now
     st.last_selected_text ht formatted st)

/-- Outcome record of one `rephrase_again` invocation:
whether the guard passed, the produced output (none when rejected),
the resulting session state, and how many network calls were issued. -/
structure RephraseRun where
  precondition_met : Bool
  output : Option String
  state : AppState
  network_calls : Nat
  deriving DecidableEq

/-- Embeds `rephrase_prompt`. -/
def rephrase_prompt (text source_language style : String) : String :=
  "Rephrase the following text in " ++ source_language ++ " " ++ style ++
  " in 5 different ways. Provide the results in a numbered list (1. ..., 2. ..., etc.) without extra comments:\n\n" ++ text

/-- Python `supported_languages.get(provider, {}).get(lang, lang)` for the
LLM providers: the OpenAI and DeepSeek dictionaries map every display name
to itself, and the default is the name itself, so the lookup is the
identity. -/
def supported_languages_llm_lookup (lang : String) : String := lang

/-- Embeds `rephrase_again`: the guard on `last_selected_text`, then either
the DeepL fan-out (workers' results collected and processed by
`process_deepl_results`) or the single LLM rephrase call handed to
`update_result`.  `tr` is the DeepL oracle, `llm` the LLM completion
oracle (prompt to reply). -/
def rephrase_again (provider : String)
    (tr : String → String → String → ApiResp) (llm : String → String)
    (src_display style src_hist tgt_hist now : String) (st : AppState) : RephraseRun :=
  if st.last_selected_text = "" then ⟨false, none, st, 0⟩
  else if provider = "DeepL" then
    let src_code := get_deepl_source_code src_display
    let tgt_code := get_deepl_target_code src_display
    let runs := intermediate_codes.map
      (fun c => perform_double_translation tr c src_code tgt_code st.last_selected_text)
    let p := process_deepl_results provider src_hist tgt_hist now st (runs.map Prod.fst)
    ⟨true, some p.1, p.2, (runs.map Prod.snd).foldl (· + ·) 0⟩
  else
    let raw := llm (rephrase_prompt st.last_selected_text
      (supported_languages_llm_lookup src_display) style)
    ⟨true, some raw,
     update_result provider src_hist tgt_hist now st st.last_selected_text (.str raw) true false, 1⟩

/-- Embeds the merge step of `prompt_and_load_history`: keep the imported
entries whose timestamp does not occur (non-empty) in the store, and if any
remain, extend and re-sort; otherwise the function returns early and the
store is untouched. -/
def merge_history (store loaded : List HistoryEntry) : List HistoryEntry :=
  if (loaded.filter
      (fun e => !(store.any (fun x => x.time == e.time && x.time != "")))).isEmpty then
    store
  else
    sort_history_data (store ++ loaded.filter
      (fun e => !(store.any (fun x => x.time == e.time && x.time != ""))))

/-- Embeds the LLM reply clean-up of `translate_to_source`:
`cleaned = raw.strip().replace('"', '')`, then a case-insensitive strip of
the leading `"<lang> Translation:"` label. -/
def translate_to_source_clean (raw final_target_display : String) : String :=
  let cleaned := removeQuotes (pyStrip raw)
  let kw := final_target_display ++ " Translation:"
  if pyLowerStartsWith cleaned kw then pyStrip (pyDrop cleaned (pyLen kw)) else cleaned

/-- Spec-side candidate list (from the claim's words): the non-error
results, stripped, with the blank ones dropped, in collection order and
with duplicates retained. -/
def spec_candidates (results : List String) : List String :=
  ((results.filter (fun r => !pyStartsWith r "__ERROR__::")).map pyStrip).filter
    (fun s => s != "")

/-- Spec-side numbering of a candidate list: item `i` is rendered
`"<i+1>. <candidate>"`. -/
def spec_numbered (l : List String) : List String :=
  ((List.range l.length).zip l).map (fun p => toString (p.1 + 1) ++ ". " ++ p.2)

/-- Spec-side dual-section parse (structured as in the spec's words:
discard until the translation label, then split at the rephrase label),
with each appended line stripped — the amended reading of the claim. -/
def spec_parse_lines (trKw repKw : String) (lines : List String) : String × String :=
  match ((lines.map pyStrip).filter (fun l => l != "")).dropWhile
      (fun l => !pyStartsWith l trKw) with
  | [] => (translation_not_found, rephrasing_not_found)
  | l0 :: rest =>
    match rest.dropWhile (fun l => !pyStartsWith l repKw) with
    | [] =>
      (pyStrip (joinNL (pyStrip (pyDrop l0 (pyLen trKw)) ::
        rest.takeWhile (fun l => !pyStartsWith l repKw))),
       rephrasing_not_found)
    | r0 :: rest2 =>
      (pyStrip (joinNL (pyStrip (pyDrop l0 (pyLen trKw)) ::
        rest.takeWhile (fun l => !pyStartsWith l repKw))),
       pyStrip (joinNL (pyStrip (pyDrop r0 (pyLen repKw)) :: rest2)))

/-- Spec-side dual-section parse exactly as the claim states it: blank
lines dropped, lines before the first label discarded, and the other
non-blank lines appended verbatim (unstripped) to the open section. -/
def spec_parse_verbatim (trKw repKw text : String) : String × String :=
  let ls := (pySplitLines text).filter (fun l => pyStrip l != "")
  match ls.dropWhile (fun l => !pyStartsWith l trKw) with
  | [] => (translation_not_found, rephrasing_not_found)
  | l0 :: rest =>
    let thead := pyDrop l0 (pyLen trKw)
    let pre := rest.takeWhile (fun l => !pyStartsWith l repKw)
    match rest.dropWhile (fun l => !pyStartsWith l repKw) with
    | [] => (pyStrip (joinNL (thead :: pre)), rephrasing_not_found)
    | r0 :: rest2 =>
      (pyStrip (joinNL (thead :: pre)),
       pyStrip (joinNL (pyDrop r0 (pyLen repKw) :: rest2)))

/-- Sortedness invariant of the history store: newest first. -/
def sorted_desc (l : List HistoryEntry) : Prop :=
  l.Pairwise (fun a b => entryKey b ≤ entryKey a)

theorem get_deepl_source_code_eq_collapse (lang : String) :
    get_deepl_source_code lang = collapseRegional (get_deepl_target_code lang) := rfl

theorem mem_pyStripList {a : Char} {l : List Char} (h : a ∈ pyStripList l) : a ∈ l := by
  unfold pyStripList at h
  have h1 := (List.dropWhile_sublist (l := (l.dropWhile pyIsSpace).reverse) pyIsSpace).subset
    (List.mem_reverse.mp h)
  exact (List.dropWhile_sublist pyIsSpace).subset (List.mem_reverse.mp h1)

theorem sort_history_data_perm (l : List HistoryEntry) :
    (sort_history_data l).Perm l := by
  unfold sort_history_data
  split
  · exact List.mergeSort_perm l historyLe
  · exact List.Perm.refl l

theorem length_sort_history_data (l : List HistoryEntry) :
    (sort_history_data l).length = l.length :=
  (sort_history_data_perm l).length_eq

theorem mem_sort_history_data {a : HistoryEntry} {l : List HistoryEntry} :
    a ∈ sort_history_data l ↔ a ∈ l :=
  (sort_history_data_perm l).mem_iff

theorem historyLe_trans (a b c : HistoryEntry)
    (h1 : historyLe a b) (h2 : historyLe b c) : historyLe a c := by
  simp only [historyLe, decide_eq_true_eq] at h1 h2 ⊢
  omega

theorem historyLe_total (a b : HistoryEntry) : historyLe a b || historyLe b a := by
  simp only [historyLe, Bool.or_eq_true, decide_eq_true_eq]
  omega

theorem sorted_sort_history_data (l : List HistoryEntry)
    (h : l.all (fun e => (parseTimeKey e.time).isSome) = true) :
    sorted_desc (sort_history_data l) := by
  unfold sort_history_data
  rw [if_pos h]
  have hp := List.sorted_mergeSort historyLe_trans historyLe_total l
  exact hp.imp (fun hab => by simpa [historyLe, decide_eq_true_eq] using hab)

theorem commitHistory_last_selected (provider src tgt now ho ht hr : String)
    (st : AppState) :
    (commitHistory provider src tgt now ho ht hr st).last_selected_text =
      st.last_selected_text := rfl

theorem commitHistory_last_translation (provider src tgt now ho ht hr : String)
    (st : AppState) :
    (commitHistory provider src tgt now ho ht hr st).last_translation =
      st.last_translation := rfl

theorem commitHistory_length (provider src tgt now ho ht hr : String) (st : AppState) :
    (commitHistory provider src tgt now ho ht hr st).history_data.length =
      st.history_data.length + 1 := by
  simp [commitHistory, length_sort_history_data]

/-- C3: the two-hop DeepL rephrase issues its step-2 back-translation with
source_lang equal to the source-code variant of the target display language
(regional English/Portuguese variants collapsed to the base code) and
target_lang equal to the target-code variant of the original source display
language (the dictionary code, regional variants preserved), whenever step 1
returned non-empty text. -/
theorem twohop_step2_codes (tr : String → String → String → ApiResp)
    (text srcD tgtD t : String)
    (h1 : tr text (get_deepl_source_code srcD) (get_deepl_target_code tgtD) = ApiResp.ok t)
    (h2 : t ≠ "") :
    (run_translate_rephrase tr text srcD tgtD).2 =
      [⟨text, collapseRegional (deeplLookup srcD), deeplLookup tgtD⟩,
       ⟨t, collapseRegional (deeplLookup tgtD), deeplLookup srcD⟩] := by
  simp only [run_translate_rephrase]
  rw [h1]
  simp only [if_neg h2]
  cases tr t (get_deepl_source_code tgtD) (get_deepl_target_code srcD) <;>
    simp [get_deepl_source_code_eq_collapse, get_deepl_target_code]

/-- Witness for C3 at a concrete provider/language pair: translating from
English-US to Spanish, step 2 runs Spanish (base source code ES) back to
English-US (regional target code preserved). -/
theorem twohop_step2_codes_witness :
    (run_translate_rephrase (fun _ _ _ => ApiResp.ok "hola") "hi" "English-US" "Spanish").2 =
      [⟨"hi", "EN", "ES"⟩, ⟨"hola", "ES", "EN-US"⟩] := by
  have h := twohop_step2_codes (fun _ _ _ => ApiResp.ok "hola") "hi" "English-US" "Spanish"
    "hola" rfl (by decide)
  exact h.trans (by decide)

/-- C6: in the two-hop DeepL Translate action, an empty step-1 result gives
a degraded success with the two placeholder fields (not an error); and when
step 1 succeeds non-empty, a step-2 exception or empty result degrades only
the rephrased field to a typed placeholder while the translated field keeps
step 1's text. -/
theorem twohop_degrade (tr : String → String → String → ApiResp)
    (text srcD tgtD : String) :
    (tr text (get_deepl_source_code srcD) (get_deepl_target_code tgtD) = ApiResp.ok "" →
      (run_translate_rephrase tr text srcD tgtD).1 =
        ApiResult.dict "[Translation Failed or Empty]" "[Rephrasing skipped]" ∧
      isErrorResult (run_translate_rephrase tr text srcD tgtD).1 = false) ∧
    (∀ t, tr text (get_deepl_source_code srcD) (get_deepl_target_code tgtD) = ApiResp.ok t →
      t ≠ "" →
      (∀ n m, tr t (get_deepl_source_code tgtD) (get_deepl_target_code srcD) = ApiResp.exn n m →
        (run_translate_rephrase tr text srcD tgtD).1 =
          ApiResult.dict t ("[Rephrasing Error: " ++ n ++ "]")) ∧
      (tr t (get_deepl_source_code tgtD) (get_deepl_target_code srcD) = ApiResp.ok "" →
        (run_translate_rephrase tr text srcD tgtD).1 =
          ApiResult.dict t "[Rephrasing resulted in empty text]") ∧
      (∀ s, tr t (get_deepl_source_code tgtD) (get_deepl_target_code srcD) = ApiResp.ok s →
        s ≠ "" →
        (run_translate_rephrase tr text srcD tgtD).1 = ApiResult.dict t s)) := by
  constructor
  · intro h
    simp only [run_translate_rephrase]
    rw [h]
    simp [isErrorResult, pyStartsWith]
  · intro t h1 h2
    refine ⟨?_, ?_, ?_⟩
    · intro n m h3
      simp only [run_translate_rephrase]
      rw [h1]
      simp only [if_neg h2]
      rw [h3]
    · intro h3
      simp only [run_translate_rephrase]
      rw [h1]
      simp only [if_neg h2]
      rw [h3]
      simp
    · intro s h3 h4
      simp only [run_translate_rephrase]
      rw [h1]
      simp only [if_neg h2]
      rw [h3]
      simp [h4]

/-- Witness for C6: an oracle whose step 1 is empty yields the degraded
placeholder success; an oracle whose step 2 raises degrades only the
rephrased field. -/
theorem twohop_degrade_witness :
    ((run_translate_rephrase (fun _ _ _ => ApiResp.ok "") "x" "English" "Turkish").1 =
      ApiResult.dict "[Translation Failed or Empty]" "[Rephrasing skipped]" ∧
     isErrorResult (run_translate_rephrase (fun _ _ _ => ApiResp.ok "") "x" "English" "Turkish").1 = false) ∧
    (run_translate_rephrase
        (fun s _ _ => if s = "x" then ApiResp.ok "merhaba" else ApiResp.exn "QuotaExceededException" "quota")
        "x" "English" "Turkish").1 =
      ApiResult.dict "merhaba" "[Rephrasing Error: QuotaExceededException]" := by
  constructor
  · exact (twohop_degrade (fun _ _ _ => ApiResp.ok "") "x" "English" "Turkish").1 rfl
  · exact ((twohop_degrade
      (fun s _ _ => if s = "x" then ApiResp.ok "merhaba" else ApiResp.exn "QuotaExceededException" "quota")
      "x" "English" "Turkish").2 "merhaba" rfl (by decide)).1
      "QuotaExceededException" "quota" rfl

/-- C8: invoking RephraseAgain with no active source text is rejected by
the guard: the outcome is a precondition error, no network call is issued,
and the session state (including history, in memory and on disk) is
unchanged, for both the DeepL fan-out path and the LLM path. -/
theorem rephrase_again_guard (provider : String)
    (tr : String → String → String → ApiResp) (llm : String → String)
    (srcD style srcH tgtH now : String) (st : AppState)
    (h : st.last_selected_text = "") :
    rephrase_again provider tr llm srcD style srcH tgtH now st =
      ⟨false, none, st, 0⟩ := by
  unfold rephrase_again
  rw [if_pos h]

/-- Witness for C8 at a concrete fresh session (empty active source text). -/
theorem rephrase_again_guard_witness :
    rephrase_again "DeepL" (fun _ _ _ => ApiResp.ok "x") (fun _ => "y")
      "English" "in simple and clear English" "English" "Turkish"
      "2024-01-01 00:00:00" ⟨"", "prev", [], []⟩ =
      ⟨false, none, ⟨"", "prev", [], []⟩, 0⟩ :=
  rephrase_again_guard "DeepL" (fun _ _ _ => ApiResp.ok "x") (fun _ => "y")
    "English" "in simple and clear English" "English" "Turkish"
    "2024-01-01 00:00:00" ⟨"", "prev", [], []⟩ rfl

/-- C10: the free-text TranslateBack clean-up removes every double-quote
character of the model's reply (embedded ones included) before the
case-insensitive label strip, so the delivered back-translation never
contains a double quote. -/
theorem translate_back_no_quotes (raw lang : String) :
    '"' ∉ (translate_to_source_clean raw lang).data := by
  intro hmem
  simp only [translate_to_source_clean] at hmem
  have hclean : ∀ c ∈ (removeQuotes (pyStrip raw)).data, c ≠ '"' := by
    intro c hc
    simp only [removeQuotes] at hc
    have := List.of_mem_filter hc
    simpa using this
  split at hmem
  · have h1 : '"' ∈ (pyDrop (removeQuotes (pyStrip raw)) (pyLen (lang ++ " Translation:"))).data :=
      mem_pyStripList hmem
    have h2 : '"' ∈ (removeQuotes (pyStrip raw)).data := by
      simp only [pyDrop] at h1
      exact (List.drop_sublist _ _).subset h1
    exact hclean _ h2 rfl
  · exact hclean _ hmem rfl

theorem valid_rephrases_eq_spec (results : List String) :
    valid_rephrases results = spec_candidates results := by
  induction results with
  | nil => rfl
  | cons r t ih =>
    by_cases he : pyStartsWith r "__ERROR__::"
    · simpa [valid_rephrases, spec_candidates, List.filterMap_cons, he] using ih
    · by_cases hs : pyStrip r = ""
      · simpa [valid_rephrases, spec_candidates, List.filterMap_cons, he, hs] using ih
      · simpa [valid_rephrases, spec_candidates, List.filterMap_cons, he, hs] using ih

/-- C1: in the DeepL fan-out rephrase, the retained candidates are exactly
the non-error results that are non-empty after stripping, in collection
order with duplicates preserved; the output numbers the first five
candidates `1.` through at most `5.`, and when more than five exist an
overflow note with the true total count is appended. -/
theorem fanout_format_spec (results : List String) :
    valid_rephrases results = spec_candidates results ∧
    (spec_candidates results ≠ [] ∧ (spec_candidates results).length ≤ 5 →
      format_rephrases results = joinNL (spec_numbered (spec_candidates results))) ∧
    (5 < (spec_candidates results).length →
      format_rephrases results =
        joinNL (spec_numbered ((spec_candidates results).take 5)) ++
          "\n... (" ++ toString (spec_candidates results).length ++ " results found)") := by
  have hv := valid_rephrases_eq_spec results
  refine ⟨hv, ?_, ?_⟩
  · rintro ⟨hne, hle⟩
    simp only [format_rephrases, hv]
    rw [if_neg (by simp [List.isEmpty_iff, hne]), if_neg (by omega),
      List.take_of_length_le hle, List.enum_eq_zip_range]
    rfl
  · intro hgt
    have hne : spec_candidates results ≠ [] := by
      intro hc; rw [hc] at hgt; simp at hgt
    simp only [format_rephrases, hv]
    rw [if_neg (by simp [List.isEmpty_iff, hne]), if_pos hgt, List.enum_eq_zip_range]
    rfl

/-- Witness for C1 matching the spec's test vector: two distinct successes
plus one duplicate success give a three-item list with the duplicate
retained, numbered 1 to 3. -/
theorem fanout_format_spec_witness :
    format_rephrases ["alpha", "__ERROR__::boom", "  beta ", "", "alpha"] =
      "1. alpha\n2. beta\n3. alpha" := by
  have h := (fanout_format_spec ["alpha", "__ERROR__::boom", "  beta ", "", "alpha"]).2.1
    ⟨by decide, by decide⟩
  exact h.trans (by decide)

/-- C2: a DeepL fan-out run with zero valid worker results still yields a
success value carrying the no-valid-alternatives placeholder (not an
`__ERROR__::` outcome), and a history entry recording the placeholder as
the rephrased field is appended and persisted. -/
theorem fanout_zero_success (provider src tgt now : String) (st : AppState)
    (results : List String) (h : valid_rephrases results = []) :
    (process_deepl_results provider src tgt now st results).1 = no_valid_placeholder ∧
    pyStartsWith (process_deepl_results provider src tgt now st results).1 "__ERROR__::" = false ∧
    (process_deepl_results provider src tgt now st results).2.history_data.length =
      st.history_data.length + 1 ∧
    (∃ e ∈ (process_deepl_results provider src tgt now st results).2.history_data,
      e.time = now ∧ e.rephrased = no_valid_placeholder) ∧
    (process_deepl_results provider src tgt now st results).2.history_file =
      (process_deepl_results provider src tgt now st results).2.history_data := by
  have hf : format_rephrases results = no_valid_placeholder := by
    simp [format_rephrases, h]
  refine ⟨?_, ?_, ?_, ?_, ?_⟩
  · simp [process_deepl_results, hf]
  · simp only [process_deepl_results]
    rw [hf]
    decide
  · simp [process_deepl_results, commitHistory, length_sort_history_data]
  · refine ⟨⟨now, provider ++ " (Rephrase)",
      st.last_selected_text,
      if st.last_translation = "" then "[Previous translation missing]" else st.last_translation,
      format_rephrases results, src ++ " -> " ++ tgt⟩, ?_, rfl, by rw [hf]⟩
    simp only [process_deepl_results, commitHistory]
    exact mem_sort_history_data.mpr (by simp)
  · simp [process_deepl_results, commitHistory]

/-- Witness for C2: a run where every worker failed still appends the
placeholder entry. -/
theorem fanout_zero_success_witness :
    (process_deepl_results "DeepL" "English" "Turkish" "2024-01-01 00:00:00"
      ⟨"src", "tr", [], []⟩ ["__ERROR__::a", "  ", "__ERROR__::b"]).1 =
      no_valid_placeholder ∧
    (process_deepl_results "DeepL" "English" "Turkish" "2024-01-01 00:00:00"
      ⟨"src", "tr", [], []⟩ ["__ERROR__::a", "  ", "__ERROR__::b"]).2.history_data.length = 1 := by
  have h := fanout_zero_success "DeepL" "English" "Turkish" "2024-01-01 00:00:00"
    ⟨"src", "tr", [], []⟩ ["__ERROR__::a", "  ", "__ERROR__::b"] (by decide)
  exact ⟨h.1, h.2.2.1⟩

/-- C4: an orchestrated action with an error outcome writes no history
entry and leaves the whole session state (active source text included)
unchanged; a successful outcome appends exactly one entry and persists the
collection; the rephrase and reverse actions never change the active
source text or the last translation (so those fields are updated only by
the forward Translate branch), and the DeepL fan-out rephrase path never
changes them either. -/
theorem orchestrator_frame (provider src tgt now : String) (st : AppState)
    (text : String) (res : ApiResult) (is_reph is_rev : Bool) :
    (isErrorResult res = true →
      update_result provider src tgt now st text res is_reph is_rev = st) ∧
    (isErrorResult res = false →
      (update_result provider src tgt now st text res is_reph is_rev).history_data.length =
        st.history_data.length + 1 ∧
      (update_result provider src tgt now st text res is_reph is_rev).history_file =
        (update_result provider src tgt now st text res is_reph is_rev).history_data) ∧
    (is_reph = true ∨ is_rev = true →
      (update_result provider src tgt now st text res is_reph is_rev).last_selected_text =
        st.last_selected_text ∧
      (update_result provider src tgt now st text res is_reph is_rev).last_translation =
        st.last_translation) ∧
    (∀ p2 s2 t2 n2 st2 rs,
      (process_deepl_results p2 s2 t2 n2 st2 rs).2.last_selected_text =
        st2.last_selected_text ∧
      (process_deepl_results p2 s2 t2 n2 st2 rs).2.last_translation =
        st2.last_translation) := by
  refine ⟨?_, ?_, ?_, ?_⟩
  · intro h
    simp [update_result, h]
  · intro h
    cases is_rev <;> cases is_reph <;>
      simp [update_result, h, commitHistory, length_sort_history_data]
  · intro hor
    by_cases h : isErrorResult res = true
    · simp [update_result, h]
    · cases is_rev <;> cases is_reph <;> simp_all [update_result, commitHistory]
  · intro p2 s2 t2 n2 st2 rs
    exact ⟨rfl, rfl⟩

/-- Witness for C4: a concrete error outcome leaves the state untouched; a
concrete successful rephrase appends one entry and keeps the active source
text. -/
theorem orchestrator_frame_witness :
    update_result "DeepL" "English" "Turkish" "2024-01-01 00:00:00"
      ⟨"src", "tr", [], []⟩ "txt" (ApiResult.str "__ERROR__::boom") false false =
      ⟨"src", "tr", [], []⟩ ∧
    (update_result "OpenAI" "English" "Turkish" "2024-01-01 00:00:00"
      ⟨"src", "tr", [], []⟩ "src" (ApiResult.str "alt") true false).history_data.length = 1 ∧
    (update_result "OpenAI" "English" "Turkish" "2024-01-01 00:00:00"
      ⟨"src", "tr", [], []⟩ "src" (ApiResult.str "alt") true false).last_selected_text =
      "src" := by
  refine ⟨?_, ?_, ?_⟩
  · exact (orchestrator_frame "DeepL" "English" "Turkish" "2024-01-01 00:00:00"
      ⟨"src", "tr", [], []⟩ "txt" (ApiResult.str "__ERROR__::boom") false false).1 (by decide)
  · have h := ((orchestrator_frame "OpenAI" "English" "Turkish" "2024-01-01 00:00:00"
      ⟨"src", "tr", [], []⟩ "src" (ApiResult.str "alt") true false).2.1 (by decide)).1
    simpa using h
  · have h := ((orchestrator_frame "OpenAI" "English" "Turkish" "2024-01-01 00:00:00"
      ⟨"src", "tr", [], []⟩ "src" (ApiResult.str "alt") true false).2.2.1 (Or.inl rfl)).1
    simpa using h

theorem foldl_parseStep_map (k r : String) (lines : List String) (st : PState) :
    lines.foldl (parseStep k r) st = (lines.map pyStrip).foldl (parseStepCore k r) st := by
  rw [List.foldl_map]
  rfl

theorem foldl_core_filter (k r : String) :
    ∀ (ls : List String) (st : PState),
      ls.foldl (parseStepCore k r) st =
        (ls.filter (fun l => l != "")).foldl (parseStepCore k r) st := by
  intro ls
  induction ls with
  | nil => intro st; rfl
  | cons l t ih =>
    intro st
    by_cases hl : l = ""
    · subst hl
      simpa [List.filter_cons, parseStepCore] using ih st
    · simp [List.filter_cons, hl, ih (parseStepCore k r st l)]

theorem foldl_core_nostart (k r : String) :
    ∀ (ls : List String),
      ls.foldl (parseStepCore k r) pInit =
        (ls.dropWhile (fun l => !pyStartsWith l k)).foldl (parseStepCore k r) pInit := by
  intro ls
  induction ls with
  | nil => rfl
  | cons l t ih =>
    by_cases hp : pyStartsWith l k
    · simp [List.dropWhile_cons, hp]
    · have hstep : parseStepCore k r pInit l = pInit := by
        by_cases hl : l = ""
        · subst hl; rfl
        · simp [parseStepCore, hl, hp, pInit]
      simp [List.dropWhile_cons, hp, hstep, ih]

theorem foldl_core_trans_phase (k r : String) :
    ∀ (ls : List String) (T : List String),
      (∀ l ∈ ls, l ≠ "" ∧ pyStartsWith l r = false) →
      ls.foldl (parseStepCore k r) ⟨true, false, PSection.trans, T, []⟩ =
        ⟨true, false, PSection.trans, T ++ ls, []⟩ := by
  intro ls
  induction ls with
  | nil => intro T _; simp
  | cons l t ih =>
    intro T hall
    have hl := hall l (by simp)
    have hstep : parseStepCore k r ⟨true, false, PSection.trans, T, []⟩ l =
        ⟨true, false, PSection.trans, T ++ [l], []⟩ := by
      simp [parseStepCore, hl.1, hl.2]
    rw [List.foldl_cons, hstep, ih (T ++ [l]) (fun x hx => hall x (by simp [hx]))]
    simp

theorem foldl_core_rep_phase (k r : String) :
    ∀ (ls : List String) (T R : List String),
      (∀ l ∈ ls, l ≠ "") →
      ls.foldl (parseStepCore k r) ⟨true, true, PSection.rep, T, R⟩ =
        ⟨true, true, PSection.rep, T, R ++ ls⟩ := by
  intro ls
  induction ls with
  | nil => intro T R _; simp
  | cons l t ih =>
    intro T R hall
    have hl := hall l (by simp)
    have hstep : parseStepCore k r ⟨true, true, PSection.rep, T, R⟩ l =
        ⟨true, true, PSection.rep, T, R ++ [l]⟩ := by
      simp [parseStepCore, hl]
    rw [List.foldl_cons, hstep, ih T (R ++ [l]) (fun x hx => hall x (by simp [hx]))]
    simp

theorem foldl_core_after_tr (k r : String) (ls : List String) (T : List String)
    (hne : ∀ l ∈ ls, l ≠ "") :
    ls.foldl (parseStepCore k r) ⟨true, false, PSection.trans, T, []⟩ =
      (ls.dropWhile (fun l => !pyStartsWith l r)).foldl (parseStepCore k r)
        ⟨true, false, PSection.trans, T ++ ls.takeWhile (fun l => !pyStartsWith l r), []⟩ := by
  conv_lhs =>
    rw [← List.takeWhile_append_dropWhile (p := fun l => !pyStartsWith l r) (l := ls)]
  rw [List.foldl_append,
    foldl_core_trans_phase k r _ T (fun x hx =>
      ⟨hne x ((List.takeWhile_sublist _).subset hx),
       by simpa using List.mem_takeWhile_imp hx⟩)]

theorem dropWhile_head_false {α : Type} (p : α → Bool) :
    ∀ (l : List α) (a : α) (t : List α), l.dropWhile p = a :: t → p a = false := by
  intro l
  induction l with
  | nil => intro a t h; simp at h
  | cons x xs ih =>
    intro a t h
    by_cases hx : p x
    · rw [List.dropWhile_cons, if_pos hx] at h
      exact ih a t h
    · rw [List.dropWhile_cons, if_neg hx] at h
      cases h
      simpa using hx

/-- C5 (amended): the dual-section parser scans the lines in order; the
first line whose stripped form has the translation label as a prefix opens
the translation section with that line's stripped remainder; the first
later line whose stripped form has the rephrase label as a prefix
(recognized only after the translation section opened) switches to the
rephrase section; every other non-blank line is appended to the open
section stripped of leading/trailing whitespace (not verbatim); blank
lines are dropped, lines before the first label are discarded, and a
never-found label resolves its field to the not-found sentinel. -/
theorem parse_llm_sections_spec (k r : String) (lines : List String) :
    parse_llm_sections k r lines = spec_parse_lines k r lines := by
  have hf : parse_fold k r lines =
      (((lines.map pyStrip).filter (fun l => l != "")).dropWhile
        (fun l => !pyStartsWith l k)).foldl (parseStepCore k r) pInit := by
    unfold parse_fold
    rw [foldl_parseStep_map, foldl_core_filter, foldl_core_nostart]
  have hmem : ∀ l ∈ (lines.map pyStrip).filter (fun l => l != ""), l ≠ "" := by
    intro l hl
    simpa using (List.mem_filter.mp hl).2
  unfold parse_llm_sections spec_parse_lines
  rw [hf]
  cases hd : ((lines.map pyStrip).filter (fun l => l != "")).dropWhile
      (fun l => !pyStartsWith l k) with
  | nil => rfl
  | cons l0 rest =>
    have hk : pyStartsWith l0 k = true := by
      have := dropWhile_head_false _ _ l0 rest hd
      simpa using this
    have hl0 : l0 ∈ (lines.map pyStrip).filter (fun l => l != "") :=
      (List.dropWhile_sublist _).subset (hd ▸ List.mem_cons_self l0 rest)
    have hl0ne : l0 ≠ "" := hmem l0 hl0
    have hrest : ∀ x ∈ rest, x ∈ (lines.map pyStrip).filter (fun l => l != "") := fun x hx =>
      (List.dropWhile_sublist _).subset (hd ▸ List.mem_cons_of_mem l0 hx)
    have hstep1 : parseStepCore k r pInit l0 =
        ⟨true, false, PSection.trans, [pyStrip (pyDrop l0 (pyLen k))], []⟩ := by
      simp [parseStepCore, hl0ne, hk, pInit]
    rw [List.foldl_cons, hstep1,
      foldl_core_after_tr k r rest _ (fun x hx => hmem x (hrest x hx))]
    cases hd2 : rest.dropWhile (fun l => !pyStartsWith l r) with
    | nil => simp [hd2]
    | cons r0 rest2 =>
      have hr : pyStartsWith r0 r = true := by
        have := dropWhile_head_false _ rest r0 rest2 hd2
        simpa using this
      have hr0ne : r0 ≠ "" :=
        hmem r0 (hrest r0 ((List.dropWhile_sublist _).subset (hd2 ▸ List.mem_cons_self r0 rest2)))
      have hrest2 : ∀ x ∈ rest2, x ≠ "" := fun x hx =>
        hmem x (hrest x ((List.dropWhile_sublist _).subset (hd2 ▸ List.mem_cons_of_mem r0 hx)))
      have hstep2 : ∀ T, parseStepCore k r ⟨true, false, PSection.trans, T, []⟩ r0 =
          ⟨true, true, PSection.rep, T, [pyStrip (pyDrop r0 (pyLen r))]⟩ := by
        intro T
        simp [parseStepCore, hr0ne, hr]
      rw [List.foldl_cons, hstep2, foldl_core_rep_phase k r rest2 _ _ hrest2]
      simp [hd2]

/-- C5 counterexample: the claim says non-blank content lines are appended
verbatim to the open section, but the code appends them stripped of
leading/trailing whitespace: on a response whose continuation line is
indented, the code's parse differs from the claim's verbatim parse. -/
theorem parse_verbatim_counterexample :
    parse_llm_response "T Translation:" "S Rephrased:" "T Translation: A\n   b" ≠
      spec_parse_verbatim "T Translation:" "S Rephrased:" "T Translation: A\n   b" := by
  decide

theorem time_ne_empty {s : String} (h : (parseTimeKey s).isSome = true) : s ≠ "" := by
  rintro rfl
  exact absurd h (by decide)

theorem merge_history_perm (store loaded : List HistoryEntry) :
    (merge_history store loaded).Perm
      (store ++ loaded.filter
        (fun e => !(store.any (fun x => x.time == e.time && x.time != "")))) := by
  unfold merge_history
  split
  · next h =>
    rw [List.isEmpty_iff.mp h]
    simp
  · exact sort_history_data_perm _

theorem merge_filter_spec (store loaded : List HistoryEntry)
    (hni : ∀ x ∈ store, x.time ≠ "") :
    loaded.filter (fun e => !(store.any (fun x => x.time == e.time && x.time != ""))) =
      loaded.filter (fun e => decide (∀ x ∈ store, x.time ≠ e.time)) := by
  apply List.filter_congr
  intro e _
  by_cases hex : ∃ x ∈ store, x.time = e.time
  · rcases hex with ⟨x, hx, ht⟩
    have hne : e.time ≠ "" := ht ▸ hni x hx
    have h1 : store.any (fun x => x.time == e.time && x.time != "") = true :=
      List.any_eq_true.mpr ⟨x, hx, by simp [ht, hne]⟩
    have h2 : ¬(∀ x ∈ store, x.time ≠ e.time) := fun hall => hall x hx ht
    simp [h1, decide_eq_false h2]
  · have h1 : store.any (fun x => x.time == e.time && x.time != "") = false := by
      rw [← Bool.not_eq_true, List.any_eq_true]
      rintro ⟨x, hx, hp⟩
      simp only [Bool.and_eq_true, beq_iff_eq, bne_iff_ne] at hp
      exact hex ⟨x, hx, hp.1⟩
    have h2 : ∀ x ∈ store, x.time ≠ e.time := fun x hx hc => hex ⟨x, hx, hc⟩
    simp [h1, decide_eq_true h2]

/-- C7: merging an imported history file keeps exactly the union of entries
keyed by timestamp (an imported entry is added iff no existing entry
carries the same time), and the resulting store is sorted by time
descending, given well-formed timestamps and an initially sorted store;
moreover the append mutation shared by all history writes also re-sorts,
so the sorted-descending invariant holds after every mutation. -/
theorem merge_history_spec (store loaded : List HistoryEntry)
    (hw : (store ++ loaded).all (fun e => (parseTimeKey e.time).isSome) = true)
    (hs : sorted_desc store) :
    (merge_history store loaded).Perm
      (store ++ loaded.filter (fun e => decide (∀ x ∈ store, x.time ≠ e.time))) ∧
    sorted_desc (merge_history store loaded) ∧
    (∀ (st : AppState) (p s t n ho ht hr : String),
      ((st.history_data ++ [(⟨n, p, ho, ht, hr, s ++ " -> " ++ t⟩ : HistoryEntry)]).all
        (fun e => (parseTimeKey e.time).isSome) = true) →
      sorted_desc (commitHistory p s t n ho ht hr st).history_data) := by
  have hall := List.all_eq_true.mp hw
  have hni : ∀ x ∈ store, x.time ≠ "" := fun x hx =>
    time_ne_empty (hall x (List.mem_append_left _ hx))
  refine ⟨?_, ?_, ?_⟩
  · have hp := merge_history_perm store loaded
    rwa [merge_filter_spec store loaded hni] at hp
  · unfold merge_history
    split
    · exact hs
    · apply sorted_sort_history_data
      apply List.all_eq_true.mpr
      intro e he
      rcases List.mem_append.mp he with h1 | h1
      · exact hall e (List.mem_append_left _ h1)
      · exact hall e (List.mem_append_right _ (List.mem_filter.mp h1).1)
  · intro st p s t n ho ht hr happ
    exact sorted_sort_history_data _ happ

/-- Witness for C7 on the spec's test vector: a store with times T1, T2
merged with an imported file holding times T1, T3 gives the union keyed by
time, sorted descending. -/
theorem merge_history_spec_witness :
    (merge_history
      [⟨"2024-03-03 10:00:00", "DeepL", "o1", "t1", "r1", "d1"⟩,
       ⟨"2024-02-02 10:00:00", "DeepL", "o2", "t2", "r2", "d2"⟩]
      [⟨"2024-03-03 10:00:00", "OpenAI", "x", "y", "z", "w"⟩,
       ⟨"2024-01-01 10:00:00", "OpenAI", "o3", "t3", "r3", "d3"⟩]).Perm
      ([⟨"2024-03-03 10:00:00", "DeepL", "o1", "t1", "r1", "d1"⟩,
        ⟨"2024-02-02 10:00:00", "DeepL", "o2", "t2", "r2", "d2"⟩] ++
       List.filter
        (fun e => decide (∀ x ∈
          [(⟨"2024-03-03 10:00:00", "DeepL", "o1", "t1", "r1", "d1"⟩ : HistoryEntry),
           ⟨"2024-02-02 10:00:00", "DeepL", "o2", "t2", "r2", "d2"⟩], x.time ≠ e.time))
        [⟨"2024-03-03 10:00:00", "OpenAI", "x", "y", "z", "w"⟩,
         ⟨"2024-01-01 10:00:00", "OpenAI", "o3", "t3", "r3", "d3"⟩]) ∧
    sorted_desc (merge_history
      [⟨"2024-03-03 10:00:00", "DeepL", "o1", "t1", "r1", "d1"⟩,
       ⟨"2024-02-02 10:00:00", "DeepL", "o2", "t2", "r2", "d2"⟩]
      [⟨"2024-03-03 10:00:00", "OpenAI", "x", "y", "z", "w"⟩,
       ⟨"2024-01-01 10:00:00", "OpenAI", "o3", "t3", "r3", "d3"⟩]) ∧
    sorted_desc (commitHistory "DeepL" "English" "Turkish" "2024-04-04 10:00:00"
      "o" "t" "r" ⟨"", "", [], []⟩).history_data := by
  have h := merge_history_spec
    [⟨"2024-03-03 10:00:00", "DeepL", "o1", "t1", "r1", "d1"⟩,
     ⟨"2024-02-02 10:00:00", "DeepL", "o2", "t2", "r2", "d2"⟩]
    [⟨"2024-03-03 10:00:00", "OpenAI", "x", "y", "z", "w"⟩,
     ⟨"2024-01-01 10:00:00", "OpenAI", "o3", "t3", "r3", "d3"⟩]
    (by decide) (by unfold sorted_desc; decide)
  exact ⟨h.1, h.2.1, h.2.2 ⟨"", "", [], []⟩ "DeepL" "English" "Turkish"
    "2024-04-04 10:00:00" "o" "t" "r" (by decide)⟩

/-- C9: when an imported entry's timestamp equals that of an entry already
in the store, the merge discards the imported entry (its multiplicity in
the merged store equals its prior multiplicity), keeps every existing
entry with all its fields intact, and never reduces any entry's
multiplicity — the import never overwrites. -/
theorem merge_no_overwrite (store loaded : List HistoryEntry) (e : HistoryEntry)
    (he : e ∈ loaded) (hc : ∃ x ∈ store, x.time = e.time ∧ x.time ≠ "") :
    (merge_history store loaded).count e = store.count e ∧
    (∀ x ∈ store, x ∈ merge_history store loaded) ∧
    (∀ x : HistoryEntry, store.count x ≤ (merge_history store loaded).count x) := by
  have hp := merge_history_perm store loaded
  have hany : store.any (fun x => x.time == e.time && x.time != "") = true := by
    rcases hc with ⟨x, hx, h1, h2⟩
    have hne : e.time ≠ "" := h1 ▸ h2
    exact List.any_eq_true.mpr ⟨x, hx, by simp [h1, hne]⟩
  have hnotmem :
      e ∉ loaded.filter (fun e => !(store.any (fun x => x.time == e.time && x.time != ""))) := by
    intro hmem
    have := (List.mem_filter.mp hmem).2
    rw [hany] at this
    exact absurd this (by decide)
  refine ⟨?_, ?_, ?_⟩
  · rw [hp.count_eq, List.count_append, List.count_eq_zero.mpr hnotmem]
    exact Nat.add_zero _
  · intro x hx
    exact hp.mem_iff.mpr (List.mem_append_left _ hx)
  · intro x
    rw [hp.count_eq, List.count_append]
    exact Nat.le_add_right _ _

/-- Witness for C9: an imported entry that collides on time with a stored
entry but differs in every other field is dropped; its count stays zero. -/
theorem merge_no_overwrite_witness :
    (merge_history [⟨"2024-01-01 10:00:00", "DeepL", "o", "t", "r", "d"⟩]
        [⟨"2024-01-01 10:00:00", "OpenAI", "O", "T", "R", "D"⟩]).count
      ⟨"2024-01-01 10:00:00", "OpenAI", "O", "T", "R", "D"⟩ =
    List.count (⟨"2024-01-01 10:00:00", "OpenAI", "O", "T", "R", "D"⟩ : HistoryEntry)
      [⟨"2024-01-01 10:00:00", "DeepL", "o", "t", "r", "d"⟩] :=
  (merge_no_overwrite [⟨"2024-01-01 10:00:00", "DeepL", "o", "t", "r", "d"⟩]
    [⟨"2024-01-01 10:00:00", "OpenAI", "O", "T", "R", "D"⟩]
    ⟨"2024-01-01 10:00:00", "OpenAI", "O", "T", "R", "D"⟩
    (by decide)
    ⟨⟨"2024-01-01 10:00:00", "DeepL", "o", "t", "r", "d"⟩, by decide, by decide, by decide⟩).1

end DeepTranslator
